import Mathlib

/-! H8 processor module: registration tables and notification dispatcher.

A shallow embedding of `src/h8/reg.cpp`: the register-name table, the
return-sequence table, the architecture-mode table `ptypes`, the
processor definition `LPH`, and the functions `load_symbols`, `find_sym`,
`set_idp_options` and `notify`.

Conventions of the embedding.

* Module variables (`device`, `ports`, `numports`, `helper`, `ptype`) and the
  two host words the file writes (`ph.flag`, `inf.mf`) are the fields of
  `ModState`; every function passes the state explicitly.
* Calls whose only result is an effect outside those variables (freeing the
  port table, writing the netnode, storing through a caller pointer) append an
  `Effect` to the log of the state, in program order.
* Functions that `reg.cpp` calls but does not define are the fields of `Host`;
  constants it takes from headers are the fields of `Hdr`.
* A `va_list` is the list of the remaining variadic arguments.  Fetching an
  argument that is absent or of the other class, indexing `ptypes` outside its
  bounds and storing through a null pointer have no defined behaviour in C:
  the embedding returns `none` there.
-/

namespace H8

/-! ## Header constants and host functions -/

/-- Constants that `reg.cpp` uses and that are declared in `h8.hpp` or in the
host headers.  `ADV`, `P300`, `P2000`, `P2600` are the `proctype_t` flag masks;
`PR_DEFSEG32`, `PRN_HEX`, `PR_USE32`, `PR_TYPEINFO` are processor flag masks;
`rVcs`, `rVds` are register ids; `H8_rts` is an instruction code; `MAXSTR` is
the size of the `device` buffer. -/
structure Hdr where
  ADV : Nat
  P300 : Nat
  P2000 : Nat
  P2600 : Nat
  PR_DEFSEG32 : Nat
  PRN_HEX : Nat
  PR_USE32 : Nat
  PR_TYPEINFO : Nat
  rVcs : Nat
  rVds : Nat
  H8_rts : Nat
  MAXSTR : Nat
  deriving DecidableEq

/-- The assumption made on the mode masks of the header: `ADV`, `P300`, `P2000`
and `P2600` are non-zero and pairwise disjoint. -/
def Hdr.ModeMasks (h : Hdr) : Prop :=
  h.ADV ≠ 0 ∧ h.P300 ≠ 0 ∧ h.P2000 ≠ 0 ∧ h.P2600 ≠ 0 ∧
  h.ADV &&& h.P300 = 0 ∧ h.ADV &&& h.P2000 = 0 ∧ h.ADV &&& h.P2600 = 0 ∧
  h.P300 &&& h.P2000 = 0 ∧ h.P300 &&& h.P2600 = 0 ∧ h.P2000 &&& h.P2600 = 0

instance (h : Hdr) : Decidable h.ModeMasks := by
  unfold Hdr.ModeMasks; infer_instance

/-- The assumption made on `PR_DEFSEG32`: a non-zero mask of the 32-bit flag
word. -/
def Hdr.FlagMask (h : Hdr) : Prop :=
  h.PR_DEFSEG32 ≠ 0 ∧ h.PR_DEFSEG32 < 2 ^ 32

instance (h : Hdr) : Decidable h.FlagMask := by
  unfold Hdr.FlagMask; infer_instance

/-- The host type `ioport_t`: one named I/O port. -/
structure ioport_t where
  address : Nat
  name : String
  cmt : String
  deriving DecidableEq

/-- One variadic argument: an integer-class value (`int`, `unsigned int`,
`size_t`, `ea_t`, and what is fetched with `va_argi`) or a pointer, `0` being
the null pointer. -/
inductive VaArg where
  | num (v : Int)
  | ptr (p : Nat)
  deriving DecidableEq

/-- The enumeration `processor_t::idp_notify`: the notification ids that have a `case` in
`notify`, and `other` for every id that has none. -/
inductive idp_notify where
  | init
  | decorate_name
  | setup_til
  | based_ptr
  | max_ptr_size
  | get_default_enum_size
  | use_stkarg_type
  | calc_purged_bytes
  | calc_arglocs2
  | term
  | newfile
  | oldfile
  | closebase
  | savebase
  | newprc
  | newasm
  | newseg
  | is_jump_func
  | is_sane_insn
  | may_be_func
  | other (id : Nat)
  deriving DecidableEq

/-- What `read_ioports` hands back: the returned table pointer, the count it
stores through `&numports`, and the contents of the `device` buffer after the
call. -/
structure IoportsRead where
  ports : Option (List ioport_t)
  numports : Nat
  device : String
  deriving DecidableEq

/-- Functions called by `reg.cpp` and defined elsewhere (the host kernel and the
other translation units of the module).  Each is a function of the arguments
the call site passes. -/
structure Host where
  invoke_callbacks : idp_notify → List VaArg → Int
  gen_decorate_name : Nat → Nat → Nat → Nat → Int → Bool → Nat → Int
  h8_use_stkvar_type : Int → Nat → Nat → Int
  h8_calc_arglocs : Nat → Nat → Nat → Int
  is_jump_func : Nat → Nat → Int
  is_sane_insn : Int → Int
  may_be_func : Int
  inf_cc_size_e : Int
  netnode_create : String → Nat
  netnode_supval : Nat → Nat → String → Nat → String
  read_ioports : String → String → Nat → IoportsRead
  choose_ioport_device : String → String → Nat → Bool × String
  find_ioport : Option (List ioport_t) → Nat → Nat → Option ioport_t

/-- An effect of the module outside its own variables. -/
inductive Effect where
  | free_ioports (ports : Option (List ioport_t)) (numports : Nat)
  | netnode_create (name : String)
  | supset (node : Nat) (idx : Nat) (value : String)
  | store (addr : Nat) (value : Nat)
  deriving DecidableEq

/-- The variables `reg.cpp` reads and writes. -/
structure ModState where
  device : String
  ports : Option (List ioport_t)
  numports : Nat
  helper : Nat
  ptype : Nat
  ph_flag : Nat
  inf_mf : Nat
  effects : List Effect
  deriving DecidableEq

/-! ## Tables -/

/-- The array `register_names`. -/
def register_names : List String :=
  [ "r0",   "r1",   "r2",  "r3",  "r4",  "r5",  "r6",  "sp",
    "e0",   "e1",   "e2",  "e3",  "e4",  "e5",  "e6",  "e7",
    "r0h",  "r1h",  "r2h", "r3h", "r4h", "r5h", "r6h", "r7h",
    "r0l",  "r1l",  "r2l", "r3l", "r4l", "r5l", "r6l", "r7l",
    "er0",  "er1",  "er2", "er3", "er4", "er5", "er6", "sp",
    "macl", "mach",
    "pc",
    "ccr",  "exr",
    "cs", "ds" ]

/-- The array `retcode_0` (rte). -/
def retcode_0 : List Nat := [0x56, 0x70]

/-- The array `retcode_1` (rts). -/
def retcode_1 : List Nat := [0x54, 0x70]

/-- The host type `bytes_t`: a length and a pointer to that many bytes
(`none` for `NULL`). -/
structure bytes_t where
  len : Nat
  bytes : Option (List Nat)
  deriving DecidableEq

/-- The array `retcodes`; `sizeof` of a `uchar` array is its element count. -/
def retcodes : List bytes_t :=
  [ { len := retcode_0.length, bytes := some retcode_0 },
    { len := retcode_1.length, bytes := some retcode_1 },
    { len := 0, bytes := none } ]

/-- The string `cfgname`. -/
def cfgname : String := "h8.cfg"

/-- The array `ptypes`. -/
def ptypes (h : Hdr) : List Nat :=
  [         h.P300,
    h.ADV ||| h.P300,
            h.P300 ||| h.P2000 ||| h.P2600,
    h.ADV ||| h.P300 ||| h.P2000 ||| h.P2600 ]

/-- The array `shnames`, with its `NULL` terminator. -/
def shnames : List (Option String) :=
  [ some "h8300", some "h8300a", some "h8s300", some "h8s300a", none ]

/-- The array `lnames`, with its `NULL` terminator. -/
def lnames : List (Option String) :=
  [ some "Hitachi H8/300H normal",
    some "Hitachi H8/300H advanced",
    some "Hitachi H8S normal",
    some "Hitachi H8S advanced",
    none ]

/-- The fields of `processor_t` that `LPH` fills with data of this file. -/
structure processor_t where
  flag : Nat
  cnbits : Nat
  dnbits : Nat
  psnames : List (Option String)
  plnames : List (Option String)
  regsNum : Nat
  regNames : List String
  regFirstSreg : Nat
  regLastSreg : Nat
  segreg_size : Nat
  regCodeSreg : Nat
  regDataSreg : Nat
  retcodes : List bytes_t
  icode_return : Nat
  deriving DecidableEq

/-- The processor definition `LPH`; `qnumber` of an array is its element
count. -/
def LPH (h : Hdr) : processor_t :=
  { flag := h.PRN_HEX ||| h.PR_USE32 ||| h.PR_TYPEINFO
    cnbits := 8
    dnbits := 8
    psnames := shnames
    plnames := lnames
    regsNum := register_names.length
    regNames := register_names
    regFirstSreg := h.rVcs
    regLastSreg := h.rVds
    segreg_size := 0
    regCodeSreg := h.rVcs
    regDataSreg := h.rVds
    retcodes := retcodes
    icode_return := h.H8_rts }

/-! ## Functions -/

/-- Modelled from the spec: `setflag` is a helper of the host headers, not of
this module.  `setflag(where, bit, cnd)` sets the bits of `bit` in the 32-bit
word `where` when `cnd` is true and clears them otherwise; this is the reading
under which the mode change keeps the invariant "advanced-mode segment
registers are 32-bit; normal-mode are 16-bit". -/
def setflag (wh : Nat) (bit : Nat) (cnd : Bool) : Nat :=
  if cnd then (wh ||| bit) % 2 ^ 32
  else wh &&& ((2 ^ 32 - 1) ^^^ (bit % 2 ^ 32))

/-- The fetch `va_arg(va, T)` for an integer-class type `T`. -/
def va_arg_num : List VaArg → Option (Int × List VaArg)
  | .num v :: rest => some (v, rest)
  | _ => none

/-- The fetch `va_arg(va, T)` for a pointer type `T`. -/
def va_arg_ptr : List VaArg → Option (Nat × List VaArg)
  | .ptr p :: rest => some (p, rest)
  | _ => none

/-- The function `load_symbols`. -/
def load_symbols (h : Hdr) (host : Host) (s : ModState) : ModState :=
  let s1 := { s with effects := s.effects ++ [Effect.free_ioports s.ports s.numports] }
  let r := host.read_ioports cfgname s1.device h.MAXSTR
  { s1 with ports := r.ports, numports := r.numports, device := r.device }

/-- The function `find_sym`: the name of the port at `address`, `none` for
`NULL`. -/
def find_sym (host : Host) (address : Nat) (s : ModState) : Option String × ModState :=
  match host.find_ioport s.ports s.numports address with
  | some port => (some port.name, s)
  | none => (none, s)

/-- The two results of `set_idp_options`. -/
inductive IdpOpt where
  | IDPOPT_OK
  | IDPOPT_BADKEY
  deriving DecidableEq

/-- The function `set_idp_options`; `keyword` is `none` for `NULL`. -/
def set_idp_options (h : Hdr) (host : Host) (keyword : Option String) (s : ModState) :
    IdpOpt × ModState :=
  if keyword ≠ none then (IdpOpt.IDPOPT_BADKEY, s)
  else
    let r := host.choose_ioport_device cfgname s.device h.MAXSTR
    let s1 := { s with device := r.2 }
    if r.1 then (IdpOpt.IDPOPT_OK, load_symbols h host s1)
    else (IdpOpt.IDPOPT_OK, s1)

/-- The body of `case processor_t::based_ptr`. -/
def case_based_ptr (va : List VaArg) (s : ModState) : Option (Int × ModState) := do
  let (_, va) ← va_arg_num va
  let (ptrname, _) ← va_arg_ptr va
  if ptrname = 0 then none
  else some (0, { s with effects := s.effects ++ [Effect.store ptrname 0] })

/-- The `switch` of `notify` together with the `return 1` that follows it.
`init` runs into `default: break`.  The body of `setup_til` is an empty block
with no `break` or `return`, so control continues with the statements of the
next label, `based_ptr`. -/
def notify_switch (h : Hdr) (host : Host) (msgid : idp_notify) (va : List VaArg)
    (s : ModState) : Option (Int × ModState) :=
  match msgid with
  | .init =>
      let node := host.netnode_create "$ h8"
      let s1 := { s with helper := node,
                         effects := s.effects ++ [Effect.netnode_create "$ h8"] }
      let s2 := { s1 with device := host.netnode_supval s1.helper 0 s1.device h.MAXSTR }
      some (1, { s2 with inf_mf := 1 })
  | .other _ => some (1, s)
  | .decorate_name => do
      let (ti, va) ← va_arg_ptr va
      let (name, va) ← va_arg_ptr va
      let (type, va) ← va_arg_ptr va
      let (outbuf, va) ← va_arg_ptr va
      let (bufsize, va) ← va_arg_num va
      let (mangle, va) ← va_arg_num va
      let (real_cc, _) ← va_arg_num va
      some (host.gen_decorate_name ti name type outbuf bufsize (decide (mangle ≠ 0))
              (real_cc % 256).toNat, s)
  | .setup_til => case_based_ptr va s
  | .based_ptr => case_based_ptr va s
  | .max_ptr_size => some (4 + 1, s)
  | .get_default_enum_size => some (host.inf_cc_size_e, s)
  | .use_stkarg_type => do
      let (ea, va) ← va_arg_num va
      let (type, va) ← va_arg_ptr va
      let (name, _) ← va_arg_ptr va
      some (host.h8_use_stkvar_type ea type name, s)
  | .calc_purged_bytes => some (0 + 2, s)
  | .calc_arglocs2 => do
      let (type, va) ← va_arg_ptr va
      let (cc, va) ← va_arg_num va
      let (arglocs, _) ← va_arg_ptr va
      some (host.h8_calc_arglocs type (cc % 256).toNat arglocs, s)
  | .term =>
      some (1, { s with effects := s.effects ++ [Effect.free_ioports s.ports s.numports] })
  | .newfile => some (1, load_symbols h host s)
  | .oldfile => some (1, load_symbols h host s)
  | .closebase =>
      some (1, { s with effects := s.effects ++ [Effect.supset s.helper 0 s.device] })
  | .savebase =>
      some (1, { s with effects := s.effects ++ [Effect.supset s.helper 0 s.device] })
  | .newprc => do
      let (i, _) ← va_arg_num va
      let p ← if 0 ≤ i then (ptypes h)[i.toNat]? else none
      let s1 := { s with ptype := p }
      some (1, { s1 with ph_flag := setflag s1.ph_flag h.PR_DEFSEG32
                                      (decide (s1.ptype &&& h.ADV ≠ 0)) })
  | .newasm => some (1, s)
  | .newseg => some (1, s)
  | .is_jump_func => do
      let (pfn, va) ← va_arg_ptr va
      let (jump_target, _) ← va_arg_ptr va
      some (host.is_jump_func pfn jump_target, s)
  | .is_sane_insn => do
      let (level, _) ← va_arg_num va
      some (host.is_sane_insn level, s)
  | .may_be_func => some (host.may_be_func, s)

/-- The function `notify`: the code of `invoke_callbacks` is returned when it
is not zero, otherwise the notification is processed by the `switch`. -/
def notify (h : Hdr) (host : Host) (msgid : idp_notify) (va : List VaArg)
    (s : ModState) : Option (Int × ModState) :=
  let code := host.invoke_callbacks msgid va
  if code ≠ 0 then some (code, s)
  else notify_switch h host msgid va s

/-! ## Use of the tables by the host, and name predicates -/

/-- Modelled from the spec: the scan of the return-sequence table is done by
the host, not by this module.  The table is read up to its terminator, the
first entry of length 0. -/
def entries_before_terminator : List bytes_t → List bytes_t
  | [] => []
  | e :: rest => if e.len = 0 then [] else e :: entries_before_terminator rest

/-- Modelled from the spec: a byte window matches an entry when it has at least
`len` bytes and its first `len` bytes are the bytes of the entry. -/
def bytes_t.matches (e : bytes_t) (window : List Nat) : Bool :=
  match e.bytes with
  | none => false
  | some bs => decide (e.len ≤ window.length ∧ window.take e.len = bs.take e.len)

/-- Modelled from the spec: the "fast return-sequence" classification of a byte
window, a match with some entry of the table before its terminator. -/
def is_ret_sequence (table : List bytes_t) (window : List Nat) : Bool :=
  (entries_before_terminator table).any (fun e => e.matches window)

/-- The names of a `NULL`-terminated name array: the entries before the first
`NULL`. -/
def names_of : List (Option String) → List String
  | [] => []
  | none :: _ => []
  | some n :: rest => n :: names_of rest

/-- Whether the string `s` ends with the string `t`. -/
def ends_with (s t : String) : Bool := t.toList.isSuffixOf s.toList

/-- Whether the string `s` starts with the string `t`. -/
def starts_with (s t : String) : Bool := t.toList.isPrefixOf s.toList

/-- The names `p0s, p1s, ...` with `n` consecutive digits from 0 (`n ≤ 10`). -/
def numbered (p s : String) (n : Nat) : List String :=
  (List.range n).map (fun i => p ++ toString i ++ s)

/-- The register list as the specification words it: r0..r6 then sp, e0..e7,
r0h..r7h, r0l..r7l, er0..er6 then sp, macl, mach, pc, ccr, exr, cs, ds. -/
def register_names_spec : List String :=
  numbered "r" "" 7 ++ ["sp"] ++ numbered "e" "" 8 ++ numbered "r" "h" 8 ++
  numbered "r" "l" 8 ++ numbered "er" "" 7 ++ ["sp"] ++
  ["macl", "mach"] ++ ["pc"] ++ ["ccr", "exr"] ++ ["cs", "ds"]

/-- Sample values of the header constants, used to instantiate the theorems. -/
def sampleHdr : Hdr :=
  { ADV := 0x80, P300 := 0x01, P2000 := 0x02, P2600 := 0x04,
    PR_DEFSEG32 := 0x000004, PRN_HEX := 0x000080, PR_USE32 := 0x000002,
    PR_TYPEINFO := 0x000800, rVcs := 45, rVds := 46, H8_rts := 150, MAXSTR := 1024 }

/-- A sample host in which no callback intercepts a notification. -/
def sampleHost : Host :=
  { invoke_callbacks := fun _ _ => 0
    gen_decorate_name := fun _ _ _ _ _ _ _ => 1
    h8_use_stkvar_type := fun _ _ _ => 1
    h8_calc_arglocs := fun _ _ _ => 1
    is_jump_func := fun _ _ => 0
    is_sane_insn := fun _ => 1
    may_be_func := 0
    inf_cc_size_e := 2
    netnode_create := fun _ => 7
    netnode_supval := fun _ _ buf _ => buf
    read_ioports := fun _ dev _ => { ports := some [], numports := 0, device := dev }
    choose_ioport_device := fun _ dev _ => (false, dev)
    find_ioport := fun _ _ _ => none }

/-- A sample host whose callbacks answer every notification with code 9. -/
def interceptingHost : Host :=
  { sampleHost with invoke_callbacks := fun _ _ => 9 }

/-- A sample module state. -/
def sampleState : ModState :=
  { device := "H8S2148", ports := none, numports := 0, helper := 0, ptype := 0x01,
    ph_flag := 0x000882, inf_mf := 0, effects := [] }

/-- The two classes of variadic arguments. -/
inductive ArgClass where
  | num
  | ptr
  deriving DecidableEq

/-- Whether the leading arguments of `va` have the given classes, in order. -/
def has_classes : List ArgClass → List VaArg → Bool
  | [], _ => true
  | .num :: cs, .num _ :: va => has_classes cs va
  | .ptr :: cs, .ptr _ :: va => has_classes cs va
  | _ :: _, _ => false

/-- The classes of the arguments that the `case` of `msgid` fetches with
`va_arg`, in order.  The statements reached from `setup_til` are those of
`based_ptr`. -/
def fetched (msgid : idp_notify) : List ArgClass :=
  match msgid with
  | .decorate_name => [.ptr, .ptr, .ptr, .ptr, .num, .num, .num]
  | .setup_til => [.num, .ptr]
  | .based_ptr => [.num, .ptr]
  | .use_stkarg_type => [.num, .ptr, .ptr]
  | .calc_arglocs2 => [.ptr, .num, .ptr]
  | .newprc => [.num]
  | .is_jump_func => [.ptr, .ptr]
  | .is_sane_insn => [.num]
  | _ => []

/-- Whether the first argument is an index inside `ptypes`. -/
def index_ok : List VaArg → Bool
  | .num i :: _ => decide (0 ≤ i ∧ i < 4)
  | _ => false

/-- Whether the second argument is a pointer other than null. -/
def store_ok : List VaArg → Bool
  | _ :: .ptr p :: _ => p != 0
  | _ => false

/-- The argument lists on which every step of the handler of `msgid` has a
meaning in C: the fetched arguments are present with their classes, the index given
to `newprc` lies inside `ptypes`, and the pointer stored through by the
statements of `based_ptr` is not null. -/
def args_ok (msgid : idp_notify) (va : List VaArg) : Bool :=
  has_classes (fetched msgid) va &&
  (if msgid = idp_notify.newprc then index_ok va else true) &&
  (if msgid = idp_notify.based_ptr ∨ msgid = idp_notify.setup_til then store_ok va else true)

/-! ## Auxiliary lemmas on masks -/

theorem and_or_right (a b c : Nat) : (a ||| b) &&& c = (a &&& c) ||| (b &&& c) := by
  rw [Nat.and_comm, Nat.and_or_distrib_left, Nat.and_comm c a, Nat.and_comm c b]

theorem ptypes_bits (h : Hdr) (hw : h.ModeMasks) (i : Nat) (hi : i < 4) :
    ∃ p, (ptypes h)[i]? = some p ∧
      (p &&& h.ADV ≠ 0 ↔ i = 1 ∨ i = 3) ∧
      (p &&& h.P2000 ≠ 0 ↔ i = 2 ∨ i = 3) ∧
      (p &&& h.P2600 ≠ 0 ↔ i = 2 ∨ i = 3) ∧
      p &&& h.P300 ≠ 0 := by
  obtain ⟨a0, b0, c0, d0, ab, ac, ad, bc, bd, cd⟩ := hw
  have ba := Nat.and_comm h.ADV h.P300 ▸ ab
  have ca := Nat.and_comm h.ADV h.P2000 ▸ ac
  have da := Nat.and_comm h.ADV h.P2600 ▸ ad
  have cb := Nat.and_comm h.P300 h.P2000 ▸ bc
  have db := Nat.and_comm h.P300 h.P2600 ▸ bd
  have dc := Nat.and_comm h.P2000 h.P2600 ▸ cd
  interval_cases i
  · exact ⟨h.P300, rfl, by simp [and_or_right, *], by simp [and_or_right, *],
      by simp [and_or_right, *], by simp [and_or_right, *]⟩
  · exact ⟨h.ADV ||| h.P300, rfl, by simp [and_or_right, *], by simp [and_or_right, *],
      by simp [and_or_right, *], by simp [and_or_right, *]⟩
  · exact ⟨h.P300 ||| h.P2000 ||| h.P2600, rfl, by simp [and_or_right, *],
      by simp [and_or_right, *], by simp [and_or_right, *], by simp [and_or_right, *]⟩
  · exact ⟨h.ADV ||| h.P300 ||| h.P2000 ||| h.P2600, rfl, by simp [and_or_right, *],
      by simp [and_or_right, *], by simp [and_or_right, *], by simp [and_or_right, *]⟩

theorem ptypes_index_lt (h : Hdr) (i p : Nat) (hp : (ptypes h)[i]? = some p) : i < 4 := by
  by_contra hge
  have : (ptypes h)[i]? = none := List.getElem?_eq_none (by simpa [ptypes] using hge)
  rw [this] at hp
  cases hp

theorem testBit_high (w k : Nat) (hw : w < 2 ^ 32) (hk : 32 ≤ k) : w.testBit k = false :=
  Nat.testBit_lt_two_pow (lt_of_lt_of_le hw (Nat.pow_le_pow_right (by decide) hk))

theorem setflag_true_and (w bit : Nat) (hb : bit < 2 ^ 32) :
    setflag w bit true &&& bit = bit := by
  apply Nat.eq_of_testBit_eq
  intro k
  simp only [setflag, if_true, Nat.testBit_and, Nat.testBit_mod_two_pow, Nat.testBit_or]
  by_cases hk : k < 32
  · cases bit.testBit k <;> simp [hk]
  · simp [hk, testBit_high bit k hb (Nat.le_of_not_lt hk)]

theorem setflag_false_and (w bit : Nat) : setflag w bit false &&& bit = 0 := by
  apply Nat.eq_of_testBit_eq
  intro k
  simp only [setflag, Bool.false_eq_true, if_false, Nat.testBit_and, Nat.testBit_xor,
    Nat.testBit_two_pow_sub_one, Nat.testBit_mod_two_pow, Nat.zero_testBit]
  by_cases hk : k < 32 <;> cases bit.testBit k <;> simp [hk]

theorem setflag_other (w bit k : Nat) (c : Bool) (hw : w < 2 ^ 32)
    (hk : bit.testBit k = false) : (setflag w bit c).testBit k = w.testBit k := by
  cases c
  · simp only [setflag, Bool.false_eq_true, if_false, Nat.testBit_and, Nat.testBit_xor,
      Nat.testBit_two_pow_sub_one, Nat.testBit_mod_two_pow, hk]
    by_cases h32 : k < 32
    · simp [h32]
    · simp [h32, testBit_high w k hw (Nat.le_of_not_lt h32)]
  · simp only [setflag, if_true, Nat.testBit_mod_two_pow, Nat.testBit_or, hk]
    by_cases h32 : k < 32
    · simp [h32]
    · simp [h32, testBit_high w k hw (Nat.le_of_not_lt h32)]

/-! ## Auxiliary lemmas on the dispatcher -/

theorem ptypes_getElem_isSome (h : Hdr) (i : Int) (h0 : 0 ≤ i) (h4 : i < 4) :
    ∃ p, (ptypes h)[i.toNat]? = some p := by
  have hlt : i.toNat < (ptypes h).length := by
    have : i.toNat < 4 := by omega
    simpa [ptypes] using this
  exact ⟨(ptypes h)[i.toNat], List.getElem?_eq_getElem hlt⟩

theorem has_classes_num (cs : List ArgClass) (va : List VaArg) :
    has_classes (ArgClass.num :: cs) va = true ↔
      ∃ v rest, va = VaArg.num v :: rest ∧ has_classes cs rest = true := by
  cases va with
  | nil => simp [has_classes]
  | cons a rest =>
    cases a with
    | num v =>
      simp only [has_classes]
      constructor
      · intro hc
        exact ⟨v, rest, rfl, hc⟩
      · rintro ⟨v1, r1, he, hc⟩
        cases he
        exact hc
    | ptr p => simp [has_classes]

theorem has_classes_ptr (cs : List ArgClass) (va : List VaArg) :
    has_classes (ArgClass.ptr :: cs) va = true ↔
      ∃ p rest, va = VaArg.ptr p :: rest ∧ has_classes cs rest = true := by
  cases va with
  | nil => simp [has_classes]
  | cons a rest =>
    cases a with
    | num v => simp [has_classes]
    | ptr p =>
      simp only [has_classes]
      constructor
      · intro hc
        exact ⟨p, rest, rfl, hc⟩
      · rintro ⟨v1, r1, he, hc⟩
        cases he
        exact hc

theorem notify_switch_defined (h : Hdr) (host : Host) (msgid : idp_notify) (va : List VaArg)
    (s : ModState) (hok : args_ok msgid va = true) :
    ∃ r s', notify_switch h host msgid va s = some (r, s') := by
  cases msgid <;>
    simp only [args_ok, fetched, Bool.and_eq_true, has_classes_num, has_classes_ptr,
      reduceCtorEq, if_false, if_true, or_false, or_true, false_or, true_or] at hok
  case newprc =>
    obtain ⟨⟨⟨i, rest, rfl, -⟩, hidx⟩, -⟩ := hok
    simp only [index_ok, decide_eq_true_eq] at hidx
    obtain ⟨p, hp⟩ := ptypes_getElem_isSome h i hidx.1 hidx.2
    simp [notify_switch, va_arg_num, hidx.1, hp]
  case based_ptr =>
    obtain ⟨⟨⟨u, r1, rfl, p, r2, rfl, -⟩, -⟩, hst⟩ := hok
    simp only [store_ok, bne_iff_ne, ne_eq] at hst
    simp [notify_switch, case_based_ptr, va_arg_num, va_arg_ptr, hst]
  case setup_til =>
    obtain ⟨⟨⟨u, r1, rfl, p, r2, rfl, -⟩, -⟩, hst⟩ := hok
    simp only [store_ok, bne_iff_ne, ne_eq] at hst
    simp [notify_switch, case_based_ptr, va_arg_num, va_arg_ptr, hst]
  case decorate_name =>
    obtain ⟨⟨⟨a1, r1, rfl, a2, r2, rfl, a3, r3, rfl, a4, r4, rfl, a5, r5, rfl, a6, r6, rfl,
      a7, r7, rfl, -⟩, -⟩, -⟩ := hok
    simp [notify_switch, va_arg_num, va_arg_ptr]
  case use_stkarg_type =>
    obtain ⟨⟨⟨a1, r1, rfl, a2, r2, rfl, a3, r3, rfl, -⟩, -⟩, -⟩ := hok
    simp [notify_switch, va_arg_num, va_arg_ptr]
  case calc_arglocs2 =>
    obtain ⟨⟨⟨a1, r1, rfl, a2, r2, rfl, a3, r3, rfl, -⟩, -⟩, -⟩ := hok
    simp [notify_switch, va_arg_num, va_arg_ptr]
  case is_jump_func =>
    obtain ⟨⟨⟨a1, r1, rfl, a2, r2, rfl, -⟩, -⟩, -⟩ := hok
    simp [notify_switch, va_arg_num, va_arg_ptr]
  case is_sane_insn =>
    obtain ⟨⟨⟨a1, r1, rfl, -⟩, -⟩, -⟩ := hok
    simp [notify_switch, va_arg_num, va_arg_ptr]
  all_goals simp [notify_switch]

theorem notify_switch_frame (h : Hdr) (host : Host) (msgid : idp_notify) (va : List VaArg)
    (s : ModState) (hm : msgid ≠ idp_notify.newprc) (r : Int) (s' : ModState)
    (hr : notify_switch h host msgid va s = some (r, s')) :
    s'.ptype = s.ptype ∧ s'.ph_flag = s.ph_flag := by
  cases msgid
  case newprc => exact absurd rfl hm
  all_goals
    simp only [notify_switch, case_based_ptr, load_symbols, Option.bind_eq_bind,
      Option.bind_eq_some, Option.some.injEq, Prod.mk.injEq, Option.pure_def,
      Prod.exists] at hr
  case decorate_name =>
    obtain ⟨_, _, -, _, _, -, _, _, -, _, _, -, _, _, -, _, _, -, _, _, -, -, rfl⟩ := hr
    exact ⟨rfl, rfl⟩
  case setup_til =>
    obtain ⟨_, _, -, p, _, -, hr⟩ := hr
    split at hr
    · cases hr
    · cases hr
      exact ⟨rfl, rfl⟩
  case based_ptr =>
    obtain ⟨_, _, -, p, _, -, hr⟩ := hr
    split at hr
    · cases hr
    · cases hr
      exact ⟨rfl, rfl⟩
  case use_stkarg_type =>
    obtain ⟨_, _, -, _, _, -, _, _, -, -, rfl⟩ := hr
    exact ⟨rfl, rfl⟩
  case calc_arglocs2 =>
    obtain ⟨_, _, -, _, _, -, _, _, -, -, rfl⟩ := hr
    exact ⟨rfl, rfl⟩
  case is_jump_func =>
    obtain ⟨_, _, -, _, _, -, -, rfl⟩ := hr
    exact ⟨rfl, rfl⟩
  case is_sane_insn =>
    obtain ⟨_, _, -, -, rfl⟩ := hr
    exact ⟨rfl, rfl⟩
  all_goals
    obtain ⟨-, rfl⟩ := hr
    exact ⟨rfl, rfl⟩

/-! ## Theorems -/

/-- C3: the return-sequence table registered in `LPH` is exactly the two
sequences 56 70 (rte) and 54 70 (rts), each of recorded length 2, followed by
one terminator entry of length 0; and a byte window matches some entry of the
table if and only if it begins with 56 70 or with 54 70. -/
theorem retcodes_table (h : Hdr) :
    (LPH h).retcodes = retcodes ∧
    retcodes = [ { len := 2, bytes := some [0x56, 0x70] },
                 { len := 2, bytes := some [0x54, 0x70] },
                 { len := 0, bytes := none } ] ∧
    entries_before_terminator retcodes =
      [ { len := 2, bytes := some [0x56, 0x70] }, { len := 2, bytes := some [0x54, 0x70] } ] ∧
    (∀ window : List Nat, is_ret_sequence retcodes window = true ↔
      ((∃ rest, window = 0x56 :: 0x70 :: rest) ∨ (∃ rest, window = 0x54 :: 0x70 :: rest))) := by
  refine ⟨rfl, rfl, rfl, ?_⟩
  intro window
  have e : entries_before_terminator retcodes =
      [ { len := 2, bytes := some [0x56, 0x70] }, { len := 2, bytes := some [0x54, 0x70] } ] := rfl
  unfold is_ret_sequence
  rw [e]
  match window with
  | [] => simp [bytes_t.matches]
  | [a] => simp [bytes_t.matches]
  | a :: b :: rest => simp [bytes_t.matches]

/-- C6: the register name table is the 47-entry list r0..r6, sp, e0..e7,
r0h..r7h, r0l..r7l, er0..er6, sp, macl, mach, pc, ccr, exr, cs, ds, indexed by
register id from 0; `LPH` reports 47 registers and that table; cs and ds are
the last two ids; every id below 47 has exactly one name and no other id has
one; two different ids have the same name only for ids 7 and 39, both named
sp. -/
theorem register_names_table (h : Hdr) :
    register_names = register_names_spec ∧
    register_names.length = 47 ∧
    (LPH h).regsNum = 47 ∧ (LPH h).regNames = register_names ∧
    (LPH h).regFirstSreg = h.rVcs ∧ (LPH h).regLastSreg = h.rVds ∧
    register_names[7]? = some "sp" ∧ register_names[39]? = some "sp" ∧
    register_names[40]? = some "macl" ∧ register_names[41]? = some "mach" ∧
    register_names[42]? = some "pc" ∧
    register_names[43]? = some "ccr" ∧ register_names[44]? = some "exr" ∧
    register_names[register_names.length - 2]? = some "cs" ∧
    register_names[register_names.length - 1]? = some "ds" ∧
    (∀ i, i < 47 → ∃! n, register_names[i]? = some n) ∧
    (∀ i, 47 ≤ i → register_names[i]? = none) ∧
    (∀ i, i < 47 → ∀ j, j < 47 → i ≠ j →
      (register_names[i]? = register_names[j]? ↔ (i = 7 ∧ j = 39) ∨ (i = 39 ∧ j = 7))) := by
  refine ⟨by decide, rfl, rfl, rfl, rfl, rfl, rfl, rfl, rfl, rfl, rfl, rfl, rfl, rfl, rfl,
    ?_, ?_, ?_⟩
  · intro i hi
    have hlen : i < register_names.length := hi
    refine ⟨register_names[i], ?_, ?_⟩
    · simp [List.getElem?_eq_getElem hlen]
    · intro n hn
      rw [List.getElem?_eq_getElem hlen] at hn
      exact (Option.some.inj hn).symm
  · intro i hi
    exact List.getElem?_eq_none (by simpa [register_names] using hi)
  · decide

/-- C4: the mode table has four entries, as many as there are short names and
long names before the `NULL` terminators, in the order h8300, h8300a, h8s300,
h8s300a; entry i has the ADV mask iff i is 1 or 3, which are the names ending
in "a" and "advanced"; it has the P2000 mask and the P2600 mask iff i is 2 or
3, which are the names starting "h8s" and (after the vendor word) "H8S"; it
always has the P300 mask; the entries are pairwise distinct; every index into
the name lists has an entry in the table. -/
theorem ptypes_table (h : Hdr) (hw : h.ModeMasks) :
    (ptypes h).length = 4 ∧
    (LPH h).psnames = shnames ∧ (LPH h).plnames = lnames ∧
    names_of shnames = ["h8300", "h8300a", "h8s300", "h8s300a"] ∧
    names_of lnames = ["Hitachi H8/300H normal", "Hitachi H8/300H advanced",
                       "Hitachi H8S normal", "Hitachi H8S advanced"] ∧
    (∀ i, i < 4 → ∃ p sn ln,
      (ptypes h)[i]? = some p ∧ (names_of shnames)[i]? = some sn ∧
      (names_of lnames)[i]? = some ln ∧
      (p &&& h.ADV ≠ 0 ↔ i = 1 ∨ i = 3) ∧
      (ends_with sn "a" = true ↔ i = 1 ∨ i = 3) ∧
      (ends_with ln "advanced" = true ↔ i = 1 ∨ i = 3) ∧
      (p &&& h.P2000 ≠ 0 ↔ i = 2 ∨ i = 3) ∧
      (p &&& h.P2600 ≠ 0 ↔ i = 2 ∨ i = 3) ∧
      (starts_with sn "h8s" = true ↔ i = 2 ∨ i = 3) ∧
      (starts_with ln "Hitachi H8S" = true ↔ i = 2 ∨ i = 3) ∧
      p &&& h.P300 ≠ 0) ∧
    (∀ (i j p q : Nat), (ptypes h)[i]? = some p → (ptypes h)[j]? = some q → i ≠ j → p ≠ q) ∧
    (∀ i, i < (names_of shnames).length → ∃ p, (ptypes h)[i]? = some p) ∧
    (∀ i, i < (names_of lnames).length → ∃ p, (ptypes h)[i]? = some p) := by
  refine ⟨rfl, rfl, rfl, rfl, rfl, ?_, ?_, ?_, ?_⟩
  · intro i hi
    obtain ⟨p, hp, hadv, h2000, h2600, h300⟩ := ptypes_bits h hw i hi
    interval_cases i
    · exact ⟨p, "h8300", "Hitachi H8/300H normal", hp, rfl, rfl, hadv, by decide, by decide,
        h2000, h2600, by decide, by decide, h300⟩
    · exact ⟨p, "h8300a", "Hitachi H8/300H advanced", hp, rfl, rfl, hadv, by decide, by decide,
        h2000, h2600, by decide, by decide, h300⟩
    · exact ⟨p, "h8s300", "Hitachi H8S normal", hp, rfl, rfl, hadv, by decide, by decide,
        h2000, h2600, by decide, by decide, h300⟩
    · exact ⟨p, "h8s300a", "Hitachi H8S advanced", hp, rfl, rfl, hadv, by decide, by decide,
        h2000, h2600, by decide, by decide, h300⟩
  · intro i j p q hp hq hij hpq
    have hi := ptypes_index_lt h i p hp
    have hj := ptypes_index_lt h j q hq
    obtain ⟨p1, hp1, ia, ib, -, -⟩ := ptypes_bits h hw i hi
    obtain ⟨q1, hq1, ja, jb, -, -⟩ := ptypes_bits h hw j hj
    rw [hp] at hp1
    rw [hq] at hq1
    cases hp1
    cases hq1
    subst hpq
    have e1 : (i = 1 ∨ i = 3) ↔ (j = 1 ∨ j = 3) := ia.symm.trans ja
    have e2 : (i = 2 ∨ i = 3) ↔ (j = 2 ∨ j = 3) := ib.symm.trans jb
    interval_cases i <;> interval_cases j <;> simp_all
  · intro i hi
    obtain ⟨p, hp, -⟩ := ptypes_bits h hw i hi
    exact ⟨p, hp⟩
  · intro i hi
    obtain ⟨p, hp, -⟩ := ptypes_bits h hw i hi
    exact ⟨p, hp⟩

/-- Witness of C4: the table theorem at the sample header constants. -/
theorem ptypes_table_witness :
    sampleHdr.ModeMasks ∧
    (∀ i, i < 4 → ∃ p sn ln,
      (ptypes sampleHdr)[i]? = some p ∧ (names_of shnames)[i]? = some sn ∧
      (names_of lnames)[i]? = some ln ∧
      (p &&& sampleHdr.ADV ≠ 0 ↔ i = 1 ∨ i = 3) ∧
      (ends_with sn "a" = true ↔ i = 1 ∨ i = 3) ∧
      (ends_with ln "advanced" = true ↔ i = 1 ∨ i = 3) ∧
      (p &&& sampleHdr.P2000 ≠ 0 ↔ i = 2 ∨ i = 3) ∧
      (p &&& sampleHdr.P2600 ≠ 0 ↔ i = 2 ∨ i = 3) ∧
      (starts_with sn "h8s" = true ↔ i = 2 ∨ i = 3) ∧
      (starts_with ln "Hitachi H8S" = true ↔ i = 2 ∨ i = 3) ∧
      p &&& sampleHdr.P300 ≠ 0) ∧
    (∀ (i j p q : Nat), (ptypes sampleHdr)[i]? = some p → (ptypes sampleHdr)[j]? = some q →
      i ≠ j → p ≠ q) :=
  ⟨by decide, (ptypes_table sampleHdr (by decide)).2.2.2.2.2.1,
    (ptypes_table sampleHdr (by decide)).2.2.2.2.2.2.1⟩

/-- C1: for every mode index i in 0..3, the new-processor-type notification,
when no callback intercepts it, returns 1, sets the mode to `ptypes[i]` and
leaves the flag word with `PR_DEFSEG32` set iff the selected mode has the ADV
mask, that is iff i is 1 or 3, whatever the flag word was before; the bits of
the flag word outside `PR_DEFSEG32` are unchanged, and so is everything else. -/
theorem newprc_sets_mode (h : Hdr) (host : Host) (i : Nat) (rest : List VaArg) (s : ModState)
    (hw : h.ModeMasks) (hd : h.FlagMask) (hi : i < 4)
    (hcb : host.invoke_callbacks idp_notify.newprc (VaArg.num (i : Int) :: rest) = 0)
    (hf : s.ph_flag < 2 ^ 32) :
    ∃ p f, (ptypes h)[i]? = some p ∧
      notify h host idp_notify.newprc (VaArg.num (i : Int) :: rest) s
        = some (1, { s with ptype := p, ph_flag := f }) ∧
      (p &&& h.ADV ≠ 0 ↔ i = 1 ∨ i = 3) ∧
      (f &&& h.PR_DEFSEG32 ≠ 0 ↔ i = 1 ∨ i = 3) ∧
      (f &&& h.PR_DEFSEG32 ≠ 0 ↔ p &&& h.ADV ≠ 0) ∧
      f &&& h.PR_DEFSEG32 = (if i = 1 ∨ i = 3 then h.PR_DEFSEG32 else 0) ∧
      (∀ k, h.PR_DEFSEG32.testBit k = false → f.testBit k = s.ph_flag.testBit k) := by
  obtain ⟨p, hp, hadv, -⟩ := ptypes_bits h hw i hi
  have hd0 : h.PR_DEFSEG32 ≠ 0 := hd.1
  have hdlt : h.PR_DEFSEG32 < 2 ^ 32 := hd.2
  refine ⟨p, setflag s.ph_flag h.PR_DEFSEG32 (decide (p &&& h.ADV ≠ 0)), hp, ?_, hadv, ?_, ?_,
    ?_, ?_⟩
  · simp [notify, hcb, notify_switch, va_arg_num, hp]
  · by_cases hc : i = 1 ∨ i = 3
    · have hpa : p &&& h.ADV ≠ 0 := hadv.mpr hc
      simp only [hpa, ne_eq, not_false_eq_true, decide_True, setflag_true_and _ _ hdlt]
      exact ⟨fun _ => hc, fun _ => hd0⟩
    · have hpa : ¬ (p &&& h.ADV ≠ 0) := fun hx => hc (hadv.mp hx)
      simp only [hpa, decide_False, setflag_false_and]
      exact ⟨fun hx => absurd rfl hx, fun hx => absurd hx hc⟩
  · by_cases hc : i = 1 ∨ i = 3
    · have hpa : p &&& h.ADV ≠ 0 := hadv.mpr hc
      simp only [hpa, ne_eq, not_false_eq_true, decide_True, setflag_true_and _ _ hdlt]
      exact ⟨fun _ => trivial, fun _ => hd0⟩
    · have hpa : ¬ (p &&& h.ADV ≠ 0) := fun hx => hc (hadv.mp hx)
      simp [hpa, setflag_false_and]
  · by_cases hc : i = 1 ∨ i = 3
    · have hpa : p &&& h.ADV ≠ 0 := hadv.mpr hc
      simp only [hpa, ne_eq, not_false_eq_true, decide_True, setflag_true_and _ _ hdlt, hc,
        if_true]
    · have hpa : ¬ (p &&& h.ADV ≠ 0) := fun hx => hc (hadv.mp hx)
      simp only [hpa, decide_False, setflag_false_and, hc, if_false]
  · intro k hk
    exact setflag_other _ _ _ _ hf hk

/-- Witness of C1: the sample header, host and state, mode index 3. -/
theorem newprc_sets_mode_witness :
    sampleHdr.ModeMasks ∧ sampleHdr.FlagMask ∧ 3 < 4 ∧
    sampleHost.invoke_callbacks idp_notify.newprc [VaArg.num 3] = 0 ∧
    sampleState.ph_flag < 2 ^ 32 ∧
    ∃ p f, (ptypes sampleHdr)[3]? = some p ∧
      notify sampleHdr sampleHost idp_notify.newprc [VaArg.num 3] sampleState
        = some (1, { sampleState with ptype := p, ph_flag := f }) ∧
      (p &&& sampleHdr.ADV ≠ 0 ↔ 3 = 1 ∨ 3 = 3) ∧
      (f &&& sampleHdr.PR_DEFSEG32 ≠ 0 ↔ 3 = 1 ∨ 3 = 3) ∧
      (f &&& sampleHdr.PR_DEFSEG32 ≠ 0 ↔ p &&& sampleHdr.ADV ≠ 0) ∧
      f &&& sampleHdr.PR_DEFSEG32 = (if 3 = 1 ∨ 3 = 3 then sampleHdr.PR_DEFSEG32 else 0) ∧
      (∀ k, sampleHdr.PR_DEFSEG32.testBit k = false →
        f.testBit k = sampleState.ph_flag.testBit k) :=
  ⟨by decide, by decide, by decide, rfl, by decide,
    newprc_sets_mode sampleHdr sampleHost 3 [] sampleState (by decide) (by decide) (by decide)
      rfl (by decide)⟩

/-- C2: when `invoke_callbacks` returns a non-zero code, `notify` returns that
code and does none of its own handling: the mode, the flag word, the device
name, the port table and its count, the helper netnode, `inf.mf` and the
effect log are as before.  When it returns 0, `notify` is the `switch`. -/
theorem notify_callback_code (h : Hdr) (host : Host) (msgid : idp_notify) (va : List VaArg)
    (s : ModState) (code : Int) (hc : host.invoke_callbacks msgid va = code) :
    (code ≠ 0 →
      ∃ s', notify h host msgid va s = some (code, s') ∧
        s'.ptype = s.ptype ∧ s'.ph_flag = s.ph_flag ∧ s'.device = s.device ∧
        s'.ports = s.ports ∧ s'.numports = s.numports ∧ s'.helper = s.helper ∧
        s'.inf_mf = s.inf_mf ∧ s'.effects = s.effects ∧ s' = s) ∧
    (code = 0 → notify h host msgid va s = notify_switch h host msgid va s) := by
  subst hc
  constructor
  · intro hne
    exact ⟨s, by simp [notify, hne], rfl, rfl, rfl, rfl, rfl, rfl, rfl, rfl, rfl⟩
  · intro h0
    simp [notify, h0]

/-- Witness of C2: a host whose callbacks answer 9 to a mode change. -/
theorem notify_callback_code_witness :
    interceptingHost.invoke_callbacks idp_notify.newprc [VaArg.num 3] = 9 ∧
    (((9 : Int) ≠ 0 →
      ∃ s', notify sampleHdr interceptingHost idp_notify.newprc [VaArg.num 3] sampleState
          = some (9, s') ∧
        s'.ptype = sampleState.ptype ∧ s'.ph_flag = sampleState.ph_flag ∧
        s'.device = sampleState.device ∧ s'.ports = sampleState.ports ∧
        s'.numports = sampleState.numports ∧ s'.helper = sampleState.helper ∧
        s'.inf_mf = sampleState.inf_mf ∧ s'.effects = sampleState.effects ∧
        s' = sampleState) ∧
     ((9 : Int) = 0 →
      notify sampleHdr interceptingHost idp_notify.newprc [VaArg.num 3] sampleState
        = notify_switch sampleHdr interceptingHost idp_notify.newprc [VaArg.num 3]
            sampleState)) :=
  ⟨rfl, notify_callback_code sampleHdr interceptingHost idp_notify.newprc [VaArg.num 3]
    sampleState 9 rfl⟩

/-- C5: a notification other than new-processor-type leaves the mode `ptype`
and the flag word as they were, whatever `notify` returns, and `notify` does
return on every argument list its handler is defined on; `set_idp_options`,
`find_sym` and `load_symbols` leave them as they were too. -/
theorem ptype_written_only_by_newprc (h : Hdr) (host : Host) (msgid : idp_notify)
    (va : List VaArg) (s : ModState) (hm : msgid ≠ idp_notify.newprc) :
    (∀ r s', notify h host msgid va s = some (r, s') →
      s'.ptype = s.ptype ∧ s'.ph_flag = s.ph_flag) ∧
    (args_ok msgid va = true →
      ∃ r s', notify h host msgid va s = some (r, s') ∧
        s'.ptype = s.ptype ∧ s'.ph_flag = s.ph_flag) ∧
    (∀ keyword, (set_idp_options h host keyword s).2.ptype = s.ptype ∧
      (set_idp_options h host keyword s).2.ph_flag = s.ph_flag) ∧
    (∀ address, (find_sym host address s).2.ptype = s.ptype ∧
      (find_sym host address s).2.ph_flag = s.ph_flag) ∧
    ((load_symbols h host s).ptype = s.ptype ∧ (load_symbols h host s).ph_flag = s.ph_flag) := by
  have frame : ∀ r s', notify h host msgid va s = some (r, s') →
      s'.ptype = s.ptype ∧ s'.ph_flag = s.ph_flag := by
    intro r s' hr
    simp only [notify] at hr
    by_cases hcode : host.invoke_callbacks msgid va ≠ 0
    · rw [if_pos hcode] at hr
      cases hr
      exact ⟨rfl, rfl⟩
    · rw [if_neg hcode] at hr
      exact notify_switch_frame h host msgid va s hm r s' hr
  refine ⟨frame, ?_, ?_, ?_, rfl, rfl⟩
  · intro hok
    by_cases hcode : host.invoke_callbacks msgid va ≠ 0
    · exact ⟨host.invoke_callbacks msgid va, s, by simp [notify, hcode], rfl, rfl⟩
    · obtain ⟨r, s', hr⟩ := notify_switch_defined h host msgid va s hok
      have hn : notify h host msgid va s = some (r, s') := by
        simp only [notify]
        rw [if_neg hcode]
        exact hr
      exact ⟨r, s', hn, frame r s' hn⟩
  · intro keyword
    simp only [set_idp_options]
    split_ifs <;> exact ⟨rfl, rfl⟩
  · intro address
    unfold find_sym
    split <;> exact ⟨rfl, rfl⟩

/-- Witness of C5: the `init` notification on the sample host and state. -/
theorem ptype_written_only_by_newprc_witness :
    idp_notify.init ≠ idp_notify.newprc ∧
    (∀ r s', notify sampleHdr sampleHost idp_notify.init [] sampleState = some (r, s') →
      s'.ptype = sampleState.ptype ∧ s'.ph_flag = sampleState.ph_flag) ∧
    (args_ok idp_notify.init [] = true →
      ∃ r s', notify sampleHdr sampleHost idp_notify.init [] sampleState = some (r, s') ∧
        s'.ptype = sampleState.ptype ∧ s'.ph_flag = sampleState.ph_flag) ∧
    (∀ keyword, (set_idp_options sampleHdr sampleHost keyword sampleState).2.ptype
        = sampleState.ptype ∧
      (set_idp_options sampleHdr sampleHost keyword sampleState).2.ph_flag
        = sampleState.ph_flag) ∧
    (∀ address, (find_sym sampleHost address sampleState).2.ptype = sampleState.ptype ∧
      (find_sym sampleHost address sampleState).2.ph_flag = sampleState.ph_flag) ∧
    ((load_symbols sampleHdr sampleHost sampleState).ptype = sampleState.ptype ∧
      (load_symbols sampleHdr sampleHost sampleState).ph_flag = sampleState.ph_flag) :=
  ⟨by decide,
    ptype_written_only_by_newprc sampleHdr sampleHost idp_notify.init [] sampleState
      (by decide)⟩

/-- C7: when no callback intercepts the notification, `max_ptr_size` returns 5,
`calc_purged_bytes` returns 2, `based_ptr` returns 0 and stores the null pointer
through its second argument, and `init`, `term`, `newfile`, `oldfile`,
`closebase`, `savebase`, `newasm`, `newseg`, every id without a `case` and
`newprc` (on an index inside `ptypes`) return 1; the argument list does not
enter the returned code: whenever `based_ptr` returns it returns 0, and
whenever `newprc` returns it returns 1. -/
theorem notify_return_codes (h : Hdr) (host : Host) (msgid : idp_notify) (va : List VaArg)
    (s : ModState) (hcb : host.invoke_callbacks msgid va = 0) :
    (msgid = idp_notify.max_ptr_size → notify h host msgid va s = some (5, s)) ∧
    (msgid = idp_notify.calc_purged_bytes → notify h host msgid va s = some (2, s)) ∧
    (msgid = idp_notify.based_ptr → ∀ u p rest, va = VaArg.num u :: VaArg.ptr p :: rest →
      p ≠ 0 →
      notify h host msgid va s
        = some (0, { s with effects := s.effects ++ [Effect.store p 0] })) ∧
    ((msgid = idp_notify.init ∨ msgid = idp_notify.term ∨ msgid = idp_notify.newfile ∨
      msgid = idp_notify.oldfile ∨ msgid = idp_notify.closebase ∨
      msgid = idp_notify.savebase ∨ msgid = idp_notify.newasm ∨ msgid = idp_notify.newseg ∨
      ∃ n, msgid = idp_notify.other n) →
      ∃ s', notify h host msgid va s = some (1, s')) ∧
    (msgid = idp_notify.newprc → index_ok va = true →
      ∃ s', notify h host msgid va s = some (1, s')) ∧
    (∀ r s', notify h host msgid va s = some (r, s') →
      (msgid = idp_notify.based_ptr → r = 0) ∧ (msgid = idp_notify.newprc → r = 1)) := by
  have hn : notify h host msgid va s = notify_switch h host msgid va s := by
    simp only [notify]
    rw [if_neg (not_not.mpr hcb)]
  rw [hn]
  refine ⟨?_, ?_, ?_, ?_, ?_, ?_⟩
  · rintro rfl
    rfl
  · rintro rfl
    rfl
  · rintro rfl u p rest rfl hp
    simp [notify_switch, case_based_ptr, va_arg_num, va_arg_ptr, hp]
  · rintro (rfl | rfl | rfl | rfl | rfl | rfl | rfl | rfl | ⟨n, rfl⟩) <;>
      exact ⟨_, rfl⟩
  · rintro rfl hidx
    match va, hidx with
    | VaArg.num i :: rest, hidx =>
      simp only [index_ok, decide_eq_true_eq] at hidx
      obtain ⟨p, hp⟩ := ptypes_getElem_isSome h i hidx.1 hidx.2
      simp [notify_switch, va_arg_num, hidx.1, hp]
  · intro r s' hr
    constructor
    · rintro rfl
      simp only [notify_switch, case_based_ptr, Option.bind_eq_bind, Option.bind_eq_some,
        Prod.exists] at hr
      obtain ⟨_, _, -, p, _, -, hr⟩ := hr
      split at hr
      · cases hr
      · cases hr
        rfl
    · rintro rfl
      simp only [notify_switch, Option.bind_eq_bind, Option.bind_eq_some, Prod.exists] at hr
      obtain ⟨_, _, -, hr⟩ := hr
      split at hr
      · simp only [Option.bind_eq_some] at hr
        obtain ⟨_, -, hr⟩ := hr
        cases hr
        rfl
      · cases hr

/-- Witness of C7: `based_ptr` on the sample host with a non-null output
pointer. -/
theorem notify_return_codes_witness :
    sampleHost.invoke_callbacks idp_notify.based_ptr [VaArg.num 0, VaArg.ptr 4096] = 0 ∧
    notify sampleHdr sampleHost idp_notify.based_ptr [VaArg.num 0, VaArg.ptr 4096] sampleState
      = some (0, { sampleState with
                    effects := sampleState.effects ++ [Effect.store 4096 0] }) :=
  ⟨rfl, (notify_return_codes sampleHdr sampleHost idp_notify.based_ptr
      [VaArg.num 0, VaArg.ptr 4096] sampleState rfl).2.2.1 rfl 0 4096 [] rfl (by decide)⟩

/-- C9, evaluated on the code: `setup_til` runs the statements of `based_ptr`.
With no argument passed the fetches are undefined; with an integer and a
pointer on the argument list the handler stores the null pointer through that
pointer and returns 0; whenever it returns, it returns 0 and not 1, after one
store through a caller pointer. -/
theorem setup_til_runs_based_ptr :
    notify sampleHdr sampleHost idp_notify.setup_til [] sampleState = none ∧
    notify sampleHdr sampleHost idp_notify.setup_til [VaArg.num 0, VaArg.ptr 4096] sampleState
      = some (0, { sampleState with effects := [Effect.store 4096 0] }) ∧
    notify sampleHdr sampleHost idp_notify.setup_til [VaArg.num 0, VaArg.ptr 4096] sampleState
      ≠ some (1, sampleState) ∧
    (∀ (h : Hdr) (host : Host) (va : List VaArg) (s : ModState),
      notify_switch h host idp_notify.setup_til va s
        = notify_switch h host idp_notify.based_ptr va s) ∧
    (∀ (h : Hdr) (host : Host) (va : List VaArg) (s : ModState) (r : Int) (s' : ModState),
      notify_switch h host idp_notify.setup_til va s = some (r, s') →
        r = 0 ∧ ∃ p, p ≠ 0 ∧ s'.effects = s.effects ++ [Effect.store p 0]) := by
  refine ⟨rfl, rfl, by decide, fun _ _ _ _ => rfl, ?_⟩
  intro h host va s r s' hr
  simp only [notify_switch, case_based_ptr, Option.bind_eq_bind, Option.bind_eq_some,
    Prod.exists] at hr
  obtain ⟨_, _, -, p, _, -, hr⟩ := hr
  split at hr
  · cases hr
  · rename_i hp
    cases hr
    exact ⟨rfl, p, hp, rfl⟩

end H8
